import Mathlib

/-!
# Verification of `edge-layer/esp32-firmware/mqtt_config.h`

The source is a C header made of an include guard and eight object-like
macro definitions.  The header is embedded line by line as a list of
preprocessor lines; the C preprocessor's treatment of such lines
(conditional inclusion, macro definition, macro replacement with rescanning)
is given as executable functions over a macro environment.
-/

namespace MqttConfig

/-! ## Data model -/

/-- Preprocessing tokens occurring in the header: identifiers, string
literals (without the quotes) and integer literals. -/
inductive Tok where
  | ident (name : String)
  | str (value : String)
  | int (value : Nat)
  deriving DecidableEq

/-- A macro definition: the parameter list (absent for an object-like macro)
and the replacement list. -/
structure Macro where
  params : Option (List String)
  body : List Tok
  deriving DecidableEq

/-- One line of a header after comment recognition. -/
inductive Line where
  | ifndef (name : String)
  | define (name : String) (params : Option (List String)) (body : List Tok)
  | endif
  | comment (text : String)
  | blank
  deriving DecidableEq

/-- The macro environment: the currently defined macros, oldest first. -/
abbrev Env := List (String × Macro)

/-- The header `mqtt_config.h`, line for line. -/
def mqtt_config_h : List Line :=
  [ Line.ifndef "MQTT_CONFIG_H",
    .define "MQTT_CONFIG_H" none [],
    .blank,
    .comment " ========= WIFI ========= ",
    .define "WIFI_SSID" none [.str "WIFI_NAME"],
    .define "WIFI_PASSWORD" none [.str "WIFI_PASSWORD"],
    .blank,
    .comment " ========= MQTT (LOCAL MOSQUITTO) ========= ",
    .define "MQTT_BROKER" none [.str "LAPTOP_IP"],
    .define "MQTT_PORT" none [.ident "PORT_NO"],
    .define "MQTT_CLIENT_ID" none [.str "ESP32_Edge_Node_01"],
    .blank,
    .comment " ========= TOPICS ========= ",
    .define "MQTT_TOPIC_EVENTS" none [.str "project/risk"],
    .define "MQTT_TOPIC_STATUS" none [.str "project/status"],
    .define "MQTT_TOPIC_CONTROL" none [.str "project/relay"],
    .blank,
    .endif ]

/-! ## Preprocessor: directives -/

/-- The definition of `name` in `env`, if any. -/
def lookupMacro (name : String) : Env → Option Macro
  | [] => none
  | (n, m) :: rest => if n = name then some m else lookupMacro name rest

/-- Whether `name` is currently defined as a macro. -/
def isDefined (name : String) (env : Env) : Bool :=
  (lookupMacro name env).isSome

/-- Remove every definition of `name` from `env`. -/
def removeMacro (name : String) : Env → Env
  | [] => []
  | (n, m) :: rest =>
    if n = name then removeMacro name rest else (n, m) :: removeMacro name rest

/-- The effect of `#define name ...`: the name stands for the new definition
from then on.  An earlier definition of the same name is replaced (compilers
diagnose a redefinition that differs and continue with the new one). -/
def defineMacro (name : String) (m : Macro) (env : Env) : Env :=
  removeMacro name env ++ [(name, m)]

/-- Preprocessor state: the environment, the number of open conditional
groups whose lines are being processed, and the number of open conditional
groups that are being skipped (zero when lines are processed). -/
structure PPState where
  env : Env
  active : Nat
  skipped : Nat
  deriving DecidableEq

/-- Process one line.  A stray `#endif` is an error. -/
def step (s : PPState) : Line → Option PPState
  | .ifndef name =>
    if 0 < s.skipped then some { s with skipped := s.skipped + 1 }
    else if isDefined name s.env then some { s with skipped := 1 }
    else some { s with active := s.active + 1 }
  | .define name params body =>
    if 0 < s.skipped then some s
    else some { s with env := defineMacro name ⟨params, body⟩ s.env }
  | .endif =>
    if 0 < s.skipped then some { s with skipped := s.skipped - 1 }
    else if 0 < s.active then some { s with active := s.active - 1 }
    else none
  | .comment _ => some s
  | .blank => some s

/-- Process a sequence of lines. -/
def run : PPState → List Line → Option PPState
  | s, [] => some s
  | s, l :: ls => (step s l).bind (fun s' => run s' ls)

/-- Process a whole file starting from `env`; every conditional group must be
closed at the end of the file. -/
def processLines (env : Env) (ls : List Line) : Option Env :=
  match run ⟨env, 0, 0⟩ ls with
  | some ⟨env', 0, 0⟩ => some env'
  | _ => none

/-- Process `mqtt_config.h` starting from `env`. -/
def processHeader (env : Env) : Option Env :=
  processLines env mqtt_config_h

/-- The names the header defines: the include guard and the eight configuration macros. -/
def headerNames : List String :=
  ["MQTT_CONFIG_H", "WIFI_SSID", "WIFI_PASSWORD", "MQTT_BROKER", "MQTT_PORT",
   "MQTT_CLIENT_ID", "MQTT_TOPIC_EVENTS", "MQTT_TOPIC_STATUS", "MQTT_TOPIC_CONTROL"]

/-- The environment after the header's nine definitions have been made in `env`. -/
def withHeaderDefinitions (env : Env) : Env :=
  defineMacro "MQTT_TOPIC_CONTROL" ⟨none, [.str "project/relay"]⟩
  (defineMacro "MQTT_TOPIC_STATUS" ⟨none, [.str "project/status"]⟩
  (defineMacro "MQTT_TOPIC_EVENTS" ⟨none, [.str "project/risk"]⟩
  (defineMacro "MQTT_CLIENT_ID" ⟨none, [.str "ESP32_Edge_Node_01"]⟩
  (defineMacro "MQTT_PORT" ⟨none, [.ident "PORT_NO"]⟩
  (defineMacro "MQTT_BROKER" ⟨none, [.str "LAPTOP_IP"]⟩
  (defineMacro "WIFI_PASSWORD" ⟨none, [.str "WIFI_PASSWORD"]⟩
  (defineMacro "WIFI_SSID" ⟨none, [.str "WIFI_NAME"]⟩
  (defineMacro "MQTT_CONFIG_H" ⟨none, []⟩ env))))))))

/-- The names that the `#define` lines of a file define, in order. -/
def definedNames : List Line → List String
  | [] => []
  | .define name _ _ :: ls => name :: definedNames ls
  | _ :: ls => definedNames ls

/-- The replacement list that the first `#define` of `name` in a file gives it. -/
def bodyOf (name : String) : List Line → Option (List Tok)
  | [] => none
  | .define n _ body :: ls => if n = name then some body else bodyOf name ls
  | _ :: ls => bodyOf name ls

/-! ## Preprocessor: macro replacement -/

/-- Concatenate the results of `f` over the tokens; fails when `f` fails. -/
def concatMapOpt (f : Tok → Option (List Tok)) : List Tok → Option (List Tok)
  | [] => some []
  | t :: ts =>
    match f t, concatMapOpt f ts with
    | some a, some b => some (a ++ b)
    | _, _ => none

/-- Macro replacement of a token sequence.  An identifier naming an
object-like macro is replaced by the macro's replacement list, which is
rescanned with that macro's name hidden.  A function-like macro's name is
only replaced when followed by a parenthesis, a token that does not occur
here, so it stays.  `fuel` bounds the nesting depth of replacements; `none`
means that it ran out. -/
def expand (env : Env) : Nat → List String → List Tok → Option (List Tok)
  | 0, _, _ => none
  | fuel + 1, hide, ts =>
    concatMapOpt (fun t =>
      match t with
      | .ident n =>
        if n ∈ hide then some [t]
        else
          match lookupMacro n env with
          | some ⟨none, body⟩ => expand env fuel (n :: hide) body
          | _ => some [t]
      | _ => some [t]) ts

/-- The macro names of `env` that are still replaceable when `hide` is hidden. -/
def replaceable (env : Env) (hide : List String) : List String :=
  (env.map Prod.fst).filter (fun n => decide (n ∉ hide))

/-- The full expansion of the macro name `name` in `env`. -/
def fullExpansion (env : Env) (fuel : Nat) (name : String) : Option (List Tok) :=
  expand env fuel [] [.ident name]

/-- The value of the port macro when its expansion is one integer literal. -/
def portValue (env : Env) (fuel : Nat) : Option Nat :=
  match fullExpansion env fuel "MQTT_PORT" with
  | some [.int n] => some n
  | _ => none

/-- Whether an expansion result is a single string literal of length at least one. -/
def isNonEmptyStringLiteral : Option (List Tok) → Bool
  | some [.str s] => decide (1 ≤ s.length)
  | _ => false

/-- Whether an expansion result is a single string literal. -/
def isStringLiteral : List Tok → Bool
  | [.str _] => true
  | _ => false

/-- The seven configuration macros of the header that hold strings. -/
def stringMacros : List String :=
  ["WIFI_SSID", "WIFI_PASSWORD", "MQTT_BROKER", "MQTT_CLIENT_ID",
   "MQTT_TOPIC_EVENTS", "MQTT_TOPIC_STATUS", "MQTT_TOPIC_CONTROL"]

/-- The string a macro name stands for in `env`, when its full expansion is
one string literal.  The fuel exceeds the number of defined macros, which
bounds the nesting of replacements. -/
def stringValue (env : Env) (name : String) : Option String :=
  match fullExpansion env (env.length + 1) name with
  | some [.str s] => some s
  | _ => none

/-- The string a configuration macro stands for in a translation unit that
consists of the header. -/
def configString (name : String) : Option String :=
  (processHeader []).bind (fun env => stringValue env name)

/-! ## Notions the configuration values are judged by -/

/-- Split a character sequence at every occurrence of `sep`. -/
def splitAt (sep : Char) : List Char → List (List Char)
  | [] => [[]]
  | c :: cs =>
    if c = sep then [] :: splitAt sep cs
    else
      match splitAt sep cs with
      | [] => [[c]]
      | l :: ls => (c :: l) :: ls

/-- The number written by a sequence of decimal digits. -/
def decimalValue (cs : List Char) : Nat :=
  cs.foldl (fun acc c => 10 * acc + (c.toNat - '0'.toNat)) 0

/-- A decimal octet: one or more decimal digits with a value of at most 255. -/
def isOctet (cs : List Char) : Bool :=
  !cs.isEmpty && cs.all Char.isDigit && decide (decimalValue cs ≤ 255)

/-- Dotted-decimal IPv4 address: four decimal octets separated by dots. -/
def isDottedDecimalIPv4 (s : String) : Bool :=
  (splitAt '.' s.data).length == 4 && (splitAt '.' s.data).all isOctet

/-- Characters allowed in a hostname label: letters, digits and the hyphen. -/
def isHostChar (c : Char) : Bool :=
  c.isAlpha || c.isDigit || c == '-'

/-- Hostname syntax: dot-separated non-empty labels of letters, digits and hyphens. -/
def isHostname (s : String) : Bool :=
  (splitAt '.' s.data).all (fun l => !l.isEmpty && l.all isHostChar)

/-- The levels of an MQTT topic name or topic filter. -/
def topicLevels (s : String) : List (List Char) :=
  splitAt '/' s.data

/-- Level-wise matching of a topic filter against a topic name: `#` as last
level matches all remaining levels (the parent included), `+` matches exactly
one level, any other level matches itself only. -/
def matchLevels : List (List Char) → List (List Char) → Bool
  | [], [] => true
  | [], _ :: _ => false
  | f :: fs, ts =>
    if f = ['#'] ∧ fs = [] then true
    else
      match ts with
      | [] => false
      | t :: ts' => (f = ['+'] || f = t) && matchLevels fs ts'

/-- Whether a subscription with topic filter `filter` receives a message
published on `topic`.  A filter starting with a wildcard never matches a
topic name starting with `$`. -/
def topicMatches (filter topic : String) : Bool :=
  !((filter.data.head? == some '+' || filter.data.head? == some '#')
      && topic.data.head? == some '$')
    && matchLevels (topicLevels filter) (topicLevels topic)

/-- Whether `a` immediately followed by `b` occurs in a character sequence. -/
def hasAdjacent (a b : Char) : List Char → Bool
  | x :: y :: rest => (x == a && y == b) || hasAdjacent a b (y :: rest)
  | _ => false

/-- Well-formedness of a topic name for publishing, under the `project` root:
non-empty, at most 65535 bytes, free of the wildcard characters, not starting
with `$` or `/`, without an empty level (so without `//` and without a
trailing `/`), and made of exactly two levels of which the first is `project`. -/
def isProjectTopicName (t : String) : Bool :=
  decide (1 ≤ t.length) && decide (t.utf8ByteSize ≤ 65535)
    && !t.data.contains '+' && !t.data.contains '#'
    && !(t.data.head? == some '$') && !(t.data.head? == some '/')
    && (topicLevels t).all (fun l => !l.isEmpty)
    && !hasAdjacent '/' '/' t.data && !(t.data.getLast? == some '/')
    && (topicLevels t).length == 2
    && (topicLevels t).head? == some "project".data

/-! ## Lemmas on the environment -/

theorem lookupMacro_append (name : String) (a b : Env) :
    lookupMacro name (a ++ b) = (lookupMacro name a).orElse (fun _ => lookupMacro name b) := by
  induction a with
  | nil => simp [lookupMacro]
  | cons e rest ih =>
    obtain ⟨n, m⟩ := e
    by_cases h : n = name <;> simp [lookupMacro, h, ih]

theorem lookupMacro_remove_self (name : String) (env : Env) :
    lookupMacro name (removeMacro name env) = none := by
  induction env with
  | nil => simp [lookupMacro, removeMacro]
  | cons e rest ih =>
    obtain ⟨n, m⟩ := e
    by_cases h : n = name <;> simp [lookupMacro, removeMacro, h, ih]

theorem lookupMacro_remove_ne (name other : String) (h : name ≠ other) (env : Env) :
    lookupMacro name (removeMacro other env) = lookupMacro name env := by
  induction env with
  | nil => simp [lookupMacro, removeMacro]
  | cons e rest ih =>
    obtain ⟨n, m⟩ := e
    by_cases h1 : n = other
    · have h2 : ¬ other = name := fun hh => h hh.symm
      subst h1
      simp [lookupMacro, removeMacro, ih, h2]
    · by_cases h3 : n = name
      · subst h3
        simp [lookupMacro, removeMacro, h]
      · simp [lookupMacro, removeMacro, h1, h3, ih]

theorem lookupMacro_define_self (name : String) (m : Macro) (env : Env) :
    lookupMacro name (defineMacro name m env) = some m := by
  simp [defineMacro, lookupMacro_append, lookupMacro_remove_self, lookupMacro]

theorem lookupMacro_define_ne (name other : String) (h : name ≠ other) (m : Macro) (env : Env) :
    lookupMacro name (defineMacro other m env) = lookupMacro name env := by
  have h2 : ¬ other = name := fun hh => h hh.symm
  simp [defineMacro, lookupMacro_append, lookupMacro_remove_ne name other h, lookupMacro, h2]

theorem processHeader_first (env : Env) (h : lookupMacro "MQTT_CONFIG_H" env = none) :
    processHeader env = some (withHeaderDefinitions env) := by
  simp [processHeader, processLines, mqtt_config_h, run, step, isDefined, h,
    withHeaderDefinitions]

theorem processHeader_again (env : Env) (h : (lookupMacro "MQTT_CONFIG_H" env).isSome = true) :
    processHeader env = some env := by
  simp [processHeader, processLines, mqtt_config_h, run, step, isDefined, h]

/-- Expansion of a name that is not defined, or of a literal, leaves it as it is. -/
theorem expand_undefined (env : Env) (k : Nat) (hide : List String) (n : String)
    (h : lookupMacro n env = none) :
    expand env (k + 1) hide [.ident n] = some [.ident n] := by
  by_cases hh : n ∈ hide <;> simp [expand, concatMapOpt, h, hh]

theorem expand_str (env : Env) (k : Nat) (hide : List String) (s : String) :
    expand env (k + 1) hide [.str s] = some [.str s] := by
  simp [expand, concatMapOpt]

theorem expand_int (env : Env) (k : Nat) (hide : List String) (n : Nat) :
    expand env (k + 1) hide [.int n] = some [.int n] := by
  simp [expand, concatMapOpt]

/-- Expansion of an object-like macro's name outside any replacement: the
expansion of its replacement list. -/
theorem fullExpansion_object (env : Env) (k : Nat) (n : String) (body : List Tok)
    (h : lookupMacro n env = some ⟨none, body⟩) :
    fullExpansion env (k + 1) n = (expand env k [n] body).map (fun r => r ++ []) := by
  simp only [fullExpansion, expand, concatMapOpt, h]
  cases expand env k [n] body <;> simp

/-- A name that the header does not define keeps its meaning. -/
theorem lookup_header_other (n : String) (hn : n ∉ headerNames) (env : Env) :
    lookupMacro n (withHeaderDefinitions env) = lookupMacro n env := by
  simp only [headerNames, List.mem_cons, List.mem_singleton, not_or, List.mem_nil_iff,
    not_false_eq_true, and_true] at hn
  obtain ⟨h0, h1, h2, h3, h4, h5, h6, h7, h8⟩ := hn
  simp only [withHeaderDefinitions]
  rw [lookupMacro_define_ne _ _ h8, lookupMacro_define_ne _ _ h7, lookupMacro_define_ne _ _ h6,
    lookupMacro_define_ne _ _ h5, lookupMacro_define_ne _ _ h4, lookupMacro_define_ne _ _ h3,
    lookupMacro_define_ne _ _ h2, lookupMacro_define_ne _ _ h1, lookupMacro_define_ne _ _ h0]

theorem lookup_header_guard (env : Env) :
    lookupMacro "MQTT_CONFIG_H" (withHeaderDefinitions env) = some ⟨none, []⟩ := by
  simp [withHeaderDefinitions, lookupMacro_define_ne, lookupMacro_define_self]

theorem lookup_header_WIFI_SSID (env : Env) :
    lookupMacro "WIFI_SSID" (withHeaderDefinitions env) = some ⟨none, [.str "WIFI_NAME"]⟩ := by
  simp [withHeaderDefinitions, lookupMacro_define_ne, lookupMacro_define_self]

theorem lookup_header_WIFI_PASSWORD (env : Env) :
    lookupMacro "WIFI_PASSWORD" (withHeaderDefinitions env) = some ⟨none, [.str "WIFI_PASSWORD"]⟩ := by
  simp [withHeaderDefinitions, lookupMacro_define_ne, lookupMacro_define_self]

theorem lookup_header_MQTT_BROKER (env : Env) :
    lookupMacro "MQTT_BROKER" (withHeaderDefinitions env) = some ⟨none, [.str "LAPTOP_IP"]⟩ := by
  simp [withHeaderDefinitions, lookupMacro_define_ne, lookupMacro_define_self]

theorem lookup_header_MQTT_PORT (env : Env) :
    lookupMacro "MQTT_PORT" (withHeaderDefinitions env) = some ⟨none, [.ident "PORT_NO"]⟩ := by
  simp [withHeaderDefinitions, lookupMacro_define_ne, lookupMacro_define_self]

theorem lookup_header_MQTT_CLIENT_ID (env : Env) :
    lookupMacro "MQTT_CLIENT_ID" (withHeaderDefinitions env) = some ⟨none, [.str "ESP32_Edge_Node_01"]⟩ := by
  simp [withHeaderDefinitions, lookupMacro_define_ne, lookupMacro_define_self]

theorem lookup_header_MQTT_TOPIC_EVENTS (env : Env) :
    lookupMacro "MQTT_TOPIC_EVENTS" (withHeaderDefinitions env) = some ⟨none, [.str "project/risk"]⟩ := by
  simp [withHeaderDefinitions, lookupMacro_define_ne, lookupMacro_define_self]

theorem lookup_header_MQTT_TOPIC_STATUS (env : Env) :
    lookupMacro "MQTT_TOPIC_STATUS" (withHeaderDefinitions env) = some ⟨none, [.str "project/status"]⟩ := by
  simp [withHeaderDefinitions, lookupMacro_define_ne, lookupMacro_define_self]

theorem lookup_header_MQTT_TOPIC_CONTROL (env : Env) :
    lookupMacro "MQTT_TOPIC_CONTROL" (withHeaderDefinitions env) = some ⟨none, [.str "project/relay"]⟩ := by
  simp [withHeaderDefinitions, lookupMacro_define_ne, lookupMacro_define_self]

/-! ## Macro replacement terminates -/

theorem lookupMacro_some_mem (name : String) (m : Macro) (env : Env)
    (h : lookupMacro name env = some m) : name ∈ env.map Prod.fst := by
  induction env with
  | nil => simp [lookupMacro] at h
  | cons e rest ih =>
    obtain ⟨n, m'⟩ := e
    by_cases hn : n = name
    · simp [hn]
    · simp only [lookupMacro, hn, if_false] at h
      simp [ih h]

theorem concatMapOpt_isSome (f : Tok → Option (List Tok)) (ts : List Tok)
    (h : ∀ t, (f t).isSome = true) : (concatMapOpt f ts).isSome = true := by
  induction ts with
  | nil => rfl
  | cons t rest ih =>
    simp only [concatMapOpt]
    have h1 := h t
    cases hf : f t with
    | none => simp [hf] at h1
    | some a =>
      cases hr : concatMapOpt f rest with
      | none => simp [hr] at ih
      | some b => rfl

theorem replaceable_hide_lt (env : Env) (hide : List String) (n : String)
    (hn : n ∈ env.map Prod.fst) (hh : n ∉ hide) :
    (replaceable env (n :: hide)).length < (replaceable env hide).length := by
  have e : replaceable env (n :: hide)
      = (replaceable env hide).filter (fun x => decide (x ≠ n)) := by
    simp only [replaceable, List.filter_filter]
    congr 1
    funext x
    by_cases hx : x = n <;> simp [hx]
  rw [e]
  apply List.length_filter_lt_length_iff_exists.mpr
  refine ⟨n, ?_, by simp⟩
  simp only [replaceable, List.mem_filter]
  exact ⟨hn, by simpa using hh⟩

/-- Replacement never runs out of fuel when the fuel exceeds the number of
macro names that are still replaceable. -/
theorem expand_isSome (env : Env) :
    ∀ (fuel : Nat) (hide : List String) (ts : List Tok),
      (replaceable env hide).length < fuel → (expand env fuel hide ts).isSome = true := by
  intro fuel
  induction fuel with
  | zero => intro hide ts h; exact absurd h (Nat.not_lt_zero _)
  | succ k ih =>
    intro hide ts h
    simp only [expand]
    apply concatMapOpt_isSome
    intro t
    cases t with
    | str s => rfl
    | int v => rfl
    | ident n =>
      by_cases hh : n ∈ hide
      · simp [hh]
      · simp only [hh, if_false]
        cases hl : lookupMacro n env with
        | none => rfl
        | some m =>
          obtain ⟨params, body⟩ := m
          cases params with
          | some ps => rfl
          | none =>
            have hlt := replaceable_hide_lt env hide n (lookupMacro_some_mem n _ env hl) hh
            exact ih (n :: hide) body (by omega)

/-- The full expansion of any name is obtained with fuel above the number of macros. -/
theorem fullExpansion_isSome (env : Env) (name : String) :
    (fullExpansion env (env.length + 1) name).isSome = true := by
  apply expand_isSome
  have h : (replaceable env []).length ≤ (env.map Prod.fst).length := List.length_filter_le _ _
  simp only [List.length_map] at h
  omega

/-! ## Checks of the notions on known values -/

example : isDottedDecimalIPv4 "192.168.1.10" = true := by decide
example : isDottedDecimalIPv4 "192.168.1.256" = false := by decide
example : isDottedDecimalIPv4 "192.168.1" = false := by decide
example : isHostname "my-laptop.local" = true := by decide
example : isHostname "my_laptop.local" = false := by decide
example : isHostname "a..b" = false := by decide
example : topicMatches "project/#" "project/risk" = true := by decide
example : topicMatches "project/+" "project/risk" = true := by decide
example : topicMatches "project/#" "project" = true := by decide
example : topicMatches "project/+" "project/risk/x" = false := by decide
example : topicMatches "#" "$SYS/x" = false := by decide
example : topicMatches "project/relay" "project/relay" = true := by decide
example : isProjectTopicName "project/relay" = true := by decide
example : isProjectTopicName "project//relay" = false := by decide
example : isProjectTopicName "project/relay/" = false := by decide

/-! ## The claims -/

/-- C1: for every port number `p` with `1 ≤ p ≤ 65535`, when `PORT_NO` is
defined as the integer literal `p` before the header is processed (and the
header has not been included yet, so its include guard is not defined), the
header is processed successfully and afterwards each of the seven string
macros fully expands to a single string literal of length at least one and
`MQTT_PORT` fully expands to the integer literal `p`. -/
theorem macros_expand_to_nonempty_literals (p : Nat) (h1 : 1 ≤ p) (h2 : p ≤ 65535)
    (env : Env) (hport : lookupMacro "PORT_NO" env = some ⟨none, [.int p]⟩)
    (hguard : lookupMacro "MQTT_CONFIG_H" env = none) :
    ∃ env', processHeader env = some env' ∧
      ∀ k, isNonEmptyStringLiteral (fullExpansion env' (k + 3) "WIFI_SSID") = true ∧
        isNonEmptyStringLiteral (fullExpansion env' (k + 3) "WIFI_PASSWORD") = true ∧
        isNonEmptyStringLiteral (fullExpansion env' (k + 3) "MQTT_BROKER") = true ∧
        isNonEmptyStringLiteral (fullExpansion env' (k + 3) "MQTT_CLIENT_ID") = true ∧
        isNonEmptyStringLiteral (fullExpansion env' (k + 3) "MQTT_TOPIC_EVENTS") = true ∧
        isNonEmptyStringLiteral (fullExpansion env' (k + 3) "MQTT_TOPIC_STATUS") = true ∧
        isNonEmptyStringLiteral (fullExpansion env' (k + 3) "MQTT_TOPIC_CONTROL") = true ∧
        fullExpansion env' (k + 3) "MQTT_PORT" = some [.int p] ∧
        1 ≤ p ∧ p ≤ 65535 := by
  refine ⟨withHeaderDefinitions env, processHeader_first env hguard, fun k => ?_⟩
  have hp : lookupMacro "PORT_NO" (withHeaderDefinitions env) = some ⟨none, [.int p]⟩ := by
    rw [lookup_header_other _ (by decide), hport]
  have hexp : expand (withHeaderDefinitions env) (k + 2) ["MQTT_PORT"] [.ident "PORT_NO"]
      = some [.int p] := by
    simp [expand, concatMapOpt, hp]
  refine ⟨?_, ?_, ?_, ?_, ?_, ?_, ?_, ?_, h1, h2⟩
  · rw [fullExpansion_object _ _ _ _ (lookup_header_WIFI_SSID env), expand_str]; decide
  · rw [fullExpansion_object _ _ _ _ (lookup_header_WIFI_PASSWORD env), expand_str]; decide
  · rw [fullExpansion_object _ _ _ _ (lookup_header_MQTT_BROKER env), expand_str]; decide
  · rw [fullExpansion_object _ _ _ _ (lookup_header_MQTT_CLIENT_ID env), expand_str]; decide
  · rw [fullExpansion_object _ _ _ _ (lookup_header_MQTT_TOPIC_EVENTS env), expand_str]; decide
  · rw [fullExpansion_object _ _ _ _ (lookup_header_MQTT_TOPIC_STATUS env), expand_str]; decide
  · rw [fullExpansion_object _ _ _ _ (lookup_header_MQTT_TOPIC_CONTROL env), expand_str]; decide
  · rw [fullExpansion_object _ _ _ _ (lookup_header_MQTT_PORT env), hexp]; rfl


/-- C1 at the port 1883, with `PORT_NO` the only macro defined beforehand. -/
theorem macros_expand_to_nonempty_literals_witness :
    (1 ≤ 1883 ∧ 1883 ≤ 65535 ∧
      lookupMacro "PORT_NO" [("PORT_NO", ⟨none, [.int 1883]⟩)] = some ⟨none, [.int 1883]⟩ ∧
      lookupMacro "MQTT_CONFIG_H" [("PORT_NO", ⟨none, [.int 1883]⟩)] = none) ∧
    ∃ env', processHeader [("PORT_NO", ⟨none, [.int 1883]⟩)] = some env' ∧
      ∀ k, isNonEmptyStringLiteral (fullExpansion env' (k + 3) "WIFI_SSID") = true ∧
        isNonEmptyStringLiteral (fullExpansion env' (k + 3) "WIFI_PASSWORD") = true ∧
        isNonEmptyStringLiteral (fullExpansion env' (k + 3) "MQTT_BROKER") = true ∧
        isNonEmptyStringLiteral (fullExpansion env' (k + 3) "MQTT_CLIENT_ID") = true ∧
        isNonEmptyStringLiteral (fullExpansion env' (k + 3) "MQTT_TOPIC_EVENTS") = true ∧
        isNonEmptyStringLiteral (fullExpansion env' (k + 3) "MQTT_TOPIC_STATUS") = true ∧
        isNonEmptyStringLiteral (fullExpansion env' (k + 3) "MQTT_TOPIC_CONTROL") = true ∧
        fullExpansion env' (k + 3) "MQTT_PORT" = some [.int 1883] ∧
        1 ≤ 1883 ∧ 1883 ≤ 65535 :=
  ⟨⟨by decide, by decide, by decide, by decide⟩,
   macros_expand_to_nonempty_literals 1883 (by decide) (by decide)
     [("PORT_NO", ⟨none, [.int 1883]⟩)] (by decide) (by decide)⟩

/-- C2: the header defines `MQTT_PORT` as the single identifier `PORT_NO`
and has no definition of `PORT_NO`; so when the header is processed (its
include guard not yet defined) in an environment in which `PORT_NO` is not
defined, `MQTT_PORT` fully expands to the identifier `PORT_NO`, which is not
an integer literal, and no port value is obtained. -/
theorem port_unresolved_without_PORT_NO (env : Env)
    (hport : lookupMacro "PORT_NO" env = none)
    (hguard : lookupMacro "MQTT_CONFIG_H" env = none) :
    bodyOf "MQTT_PORT" mqtt_config_h = some [.ident "PORT_NO"] ∧
    "PORT_NO" ∉ definedNames mqtt_config_h ∧
    ∃ env', processHeader env = some env' ∧
      lookupMacro "PORT_NO" env' = none ∧
      (∀ k, fullExpansion env' (k + 2) "MQTT_PORT" = some [.ident "PORT_NO"]) ∧
      (∀ fuel n, fullExpansion env' fuel "MQTT_PORT" ≠ some [.int n]) ∧
      (∀ fuel, portValue env' fuel = none) := by
  have hp : lookupMacro "PORT_NO" (withHeaderDefinitions env) = none := by
    rw [lookup_header_other _ (by decide), hport]
  have hexp : ∀ k, fullExpansion (withHeaderDefinitions env) (k + 2) "MQTT_PORT"
      = some [.ident "PORT_NO"] := by
    intro k
    rw [fullExpansion_object _ _ _ _ (lookup_header_MQTT_PORT env),
      expand_undefined _ _ _ _ hp]
    rfl
  have hnot : ∀ fuel n, fullExpansion (withHeaderDefinitions env) fuel "MQTT_PORT"
      ≠ some [.int n] := by
    intro fuel n
    match fuel with
    | 0 => simp [fullExpansion, expand]
    | 1 =>
      rw [fullExpansion_object _ _ _ _ (lookup_header_MQTT_PORT env)]
      simp [expand]
    | k + 2 => rw [hexp k]; simp
  refine ⟨by decide, by decide, withHeaderDefinitions env, processHeader_first env hguard,
    hp, hexp, hnot, fun fuel => ?_⟩
  match fuel with
  | 0 => simp [portValue, fullExpansion, expand]
  | 1 =>
    simp only [portValue]
    rw [fullExpansion_object _ _ _ _ (lookup_header_MQTT_PORT env)]
    simp [expand]
  | k + 2 => simp only [portValue]; rw [hexp k]

/-- C2 in the empty environment. -/
theorem port_unresolved_without_PORT_NO_witness :
    (lookupMacro "PORT_NO" [] = none ∧ lookupMacro "MQTT_CONFIG_H" [] = none) ∧
    bodyOf "MQTT_PORT" mqtt_config_h = some [.ident "PORT_NO"] ∧
    "PORT_NO" ∉ definedNames mqtt_config_h ∧
    ∃ env', processHeader [] = some env' ∧
      lookupMacro "PORT_NO" env' = none ∧
      (∀ k, fullExpansion env' (k + 2) "MQTT_PORT" = some [.ident "PORT_NO"]) ∧
      (∀ fuel n, fullExpansion env' fuel "MQTT_PORT" ≠ some [.int n]) ∧
      (∀ fuel, portValue env' fuel = none) :=
  ⟨⟨by decide, by decide⟩, port_unresolved_without_PORT_NO [] (by decide) (by decide)⟩

/-- C3: processing the header from the empty environment defines exactly
nine names, the include guard and the eight configuration macros; each is an
object-like macro, each is defined by exactly one `#define` line, the seven
string macros have a single string literal as body and `MQTT_PORT` has not. -/
theorem header_defines_nine_object_like_macros :
    ∃ env, processHeader [] = some env ∧
      env.map Prod.fst = headerNames ∧
      headerNames.length = 9 ∧
      (∀ n, isDefined n env = decide (n ∈ headerNames)) ∧
      env.all (fun e => e.2.params.isNone) = true ∧
      definedNames mqtt_config_h = headerNames ∧
      headerNames.all (fun n => (definedNames mqtt_config_h).count n == 1) = true ∧
      stringMacros.length = 7 ∧
      stringMacros.all (fun n => (lookupMacro n env).any (fun m => isStringLiteral m.body))
        = true ∧
      (lookupMacro "MQTT_PORT" env).map (fun m => isStringLiteral m.body) = some false ∧
      (lookupMacro "MQTT_CONFIG_H" env).map (fun m => isStringLiteral m.body) = some false := by
  refine ⟨withHeaderDefinitions [], processHeader_first [] (by decide), by decide, by decide,
    ?_, by decide, by decide, by decide, by decide, by decide, by decide, by decide⟩
  intro n
  by_cases h : n ∈ headerNames
  · have h' := h
    simp only [headerNames, List.mem_cons, List.mem_singleton, List.mem_nil_iff,
      or_false] at h'
    rcases h' with h' | h' | h' | h' | h' | h' | h' | h' | h' <;> subst h' <;> decide
  · simp only [isDefined, lookup_header_other n h, h, decide_False]
    rfl

/-- C4: including the header is idempotent.  From every starting environment
the header is processed successfully; the result is the starting environment
itself when the include guard was already defined and the starting
environment with the nine definitions made otherwise; in both cases it has
the include guard defined.  The second pass over the header, started from
that result, finds the guard defined at the `#ifndef` line and skips: after
each of the first 17 of the 18 lines the state is the same environment with
one skipped group open, so no `#define` line is executed and no macro is
redefined, and the `#endif` line closes the group.  Hence the second pass
returns the same environment as the first. -/
theorem include_idempotent (env : Env) :
    ∃ env', processHeader env = some env' ∧
      env' = (if isDefined "MQTT_CONFIG_H" env = true then env
        else withHeaderDefinitions env) ∧
      isDefined "MQTT_CONFIG_H" env' = true ∧
      mqtt_config_h.length = 18 ∧
      (∀ i : Fin 17,
        run ⟨env', 0, 0⟩ (mqtt_config_h.take (i.val + 1)) = some ⟨env', 0, 1⟩) ∧
      run ⟨env', 0, 0⟩ mqtt_config_h = some ⟨env', 0, 0⟩ ∧
      processHeader env' = some env' ∧
      (processHeader env).bind processHeader = processHeader env := by
  have key : ∀ e : Env, (lookupMacro "MQTT_CONFIG_H" e).isSome = true →
      run ⟨e, 0, 0⟩ mqtt_config_h = some ⟨e, 0, 0⟩ := by
    intro e he
    simp [mqtt_config_h, run, step, isDefined, he]
  have skip : ∀ e : Env, (lookupMacro "MQTT_CONFIG_H" e).isSome = true →
      ∀ i : Fin 17, run ⟨e, 0, 0⟩ (mqtt_config_h.take (i.val + 1)) = some ⟨e, 0, 1⟩ := by
    intro e he i
    fin_cases i <;> simp [mqtt_config_h, run, step, isDefined, he]
  cases h : lookupMacro "MQTT_CONFIG_H" env with
  | none =>
    have hg : (lookupMacro "MQTT_CONFIG_H" (withHeaderDefinitions env)).isSome = true := by
      rw [lookup_header_guard]; rfl
    refine ⟨withHeaderDefinitions env, processHeader_first env h, ?_, hg, by decide,
      skip _ hg, key _ hg, processHeader_again _ hg, ?_⟩
    · simp [isDefined, h]
    · rw [processHeader_first env h, Option.some_bind]
      exact processHeader_again _ hg
  | some m =>
    have hg : (lookupMacro "MQTT_CONFIG_H" env).isSome = true := by rw [h]; rfl
    refine ⟨env, processHeader_again env hg, ?_, hg, by decide, skip _ hg, key _ hg,
      processHeader_again env hg, ?_⟩
    · simp [isDefined, h]
    · rw [processHeader_again env hg, Option.some_bind]
      exact processHeader_again env hg

/-- C5: the value of `MQTT_BROKER` is the placeholder `LAPTOP_IP`, which is
neither a dotted-decimal IPv4 address nor a hostname: it contains an
underscore, no digit and no dot. -/
theorem broker_is_placeholder :
    ∃ s, configString "MQTT_BROKER" = some s ∧ s = "LAPTOP_IP" ∧
      isDottedDecimalIPv4 s = false ∧
      isHostname s = false ∧
      s.data.contains '_' = true ∧
      isHostChar '_' = false ∧
      s.data.any Char.isDigit = false ∧
      s.data.contains '.' = false :=
  ⟨"LAPTOP_IP", by decide, rfl, by decide, by decide, by decide, by decide, by decide,
    by decide⟩

/-- C6: the three topic strings are pairwise distinct, and the subscribe
topic `MQTT_TOPIC_CONTROL`, taken as a topic filter, matches neither the
events topic nor the status topic. -/
theorem control_filter_excludes_publish_topics :
    ∃ events status control,
      configString "MQTT_TOPIC_EVENTS" = some events ∧
      configString "MQTT_TOPIC_STATUS" = some status ∧
      configString "MQTT_TOPIC_CONTROL" = some control ∧
      events ≠ status ∧ events ≠ control ∧ status ≠ control ∧
      topicMatches control events = false ∧
      topicMatches control status = false :=
  ⟨"project/risk", "project/status", "project/relay", by decide, by decide, by decide,
    by decide, by decide, by decide, by decide, by decide⟩

/-- C7: each of the three topic strings is a well-formed topic name for
publishing: non-empty, at most 65535 bytes long, without `+` and `#`, not
starting with `$` or `/`, without an empty level, and of exactly two levels
with `project` as the first. -/
theorem topics_are_wellformed_names :
    ∃ events status control,
      configString "MQTT_TOPIC_EVENTS" = some events ∧
      configString "MQTT_TOPIC_STATUS" = some status ∧
      configString "MQTT_TOPIC_CONTROL" = some control ∧
      isProjectTopicName events = true ∧
      isProjectTopicName status = true ∧
      isProjectTopicName control = true :=
  ⟨"project/risk", "project/status", "project/relay", by decide, by decide, by decide,
    by decide, by decide, by decide⟩

/-- C8: the client identifier `MQTT_CLIENT_ID` is 18 bytes long, which lies
between 1 and 23, consists of ASCII characters only, and is not purely
alphanumeric because it contains the character `_`. -/
theorem client_id_length_and_charset :
    ∃ id, configString "MQTT_CLIENT_ID" = some id ∧
      id.utf8ByteSize = 18 ∧
      1 ≤ id.utf8ByteSize ∧ id.utf8ByteSize ≤ 23 ∧
      id.data.all (fun c => decide (c.toNat < 128)) = true ∧
      id.data.all Char.isAlphanum = false ∧
      id.data.contains '_' = true ∧
      Char.isAlphanum '_' = false :=
  ⟨"ESP32_Edge_Node_01", by decide, by decide, by decide, by decide, by decide, by decide,
    by decide, by decide⟩

end MqttConfig
